import Mathlib

/-
Verification of the push-to-talk capture-and-transcribe pipeline
(`voice_gui.py`, with the CLI variant `ptt.py`).

Shallow embedding notes:
* Audio samples are modelled as `Int` values; the recorder's `_frames`
  list of numpy blocks becomes `List (List Int)`, and `np.concatenate`
  becomes `List.join`.
* The mutable objects (`Recorder`, the `App` controller) become explicit
  state records with pure transition functions, one per Python handler,
  keeping the source's guard structure line by line.
* Cross-thread Qt signal delivery is modelled as a list of events folded
  one at a time through the controller step function, matching the
  single-serialization-point delivery the GUI event loop provides.
* `outstanding` is a ghost counter of transcription jobs submitted but
  not yet completed/failed; the code itself tracks this via the
  `_transcribing` flag plus the worker thread lifetime.
-/

namespace Voice

/-! ## Recorder (voice_gui.py lines 172-222; ptt.py lines 26-78 is the
same logic with an extra stderr print in the callback) -/

structure RecState where
  frames : List (List Int)
  recording : Bool
deriving DecidableEq, Repr

/-- `Recorder.start`: under the lock, return if already recording,
otherwise clear the frame list and set the recording flag (then open the
audio stream, which has no effect on the modelled state). -/
def Recorder.start (r : RecState) : RecState :=
  if r.recording then r
  else { frames := [], recording := true }

/-- The audio-stream callback: under the lock, append a copy of the
incoming block if the recording flag is set. -/
def Recorder.callback (r : RecState) (indata : List Int) : RecState :=
  if r.recording then { r with frames := r.frames ++ [indata] } else r

/-- `Recorder.stop`: under the lock, if not recording return an empty
array (state untouched); otherwise clear the flag first, then (after
closing the stream) if the frame list is empty return an empty array,
else concatenate the frames, clear the list and return the audio. -/
def Recorder.stop (r : RecState) : RecState × List Int :=
  if !r.recording then (r, [])
  else
    let r1 : RecState := { r with recording := false }
    if r1.frames = [] then (r1, [])
    else ({ frames := [], recording := false }, r1.frames.flatten)

/-- A run of callback deliveries while the stream is open. -/
def Recorder.appendBlocks (r : RecState) (bs : List (List Int)) : RecState :=
  List.foldl Recorder.callback r bs

/-! ## Persisted config (voice_gui.py lines 60-92)

`load_config` reads JSON into a Python dict and passes the values of the
known dataclass fields through unchecked, so the loaded fields are
dynamically typed: we model a JSON scalar value type `JVal` (the config
files written by `save_config` only hold scalars and `null`;
`window_pos` pairs are out of scope of the claims) and a `LoadedConfig`
whose fields hold `JVal`s, with the dataclass defaults. -/

inductive JVal
  | null
  | bool (b : Bool)
  | num (n : Int)
  | str (s : String)
deriving DecidableEq, Repr

/-- Python truthiness of a JSON scalar, as used by
`raw.get("paste_after_copy")` in the migration. -/
def JVal.truthy : JVal → Bool
  | .null => false
  | .bool b => b
  | .num n => n != 0
  | .str s => s != ""

/-- The `AppConfig` dataclass field defaults (voice_gui.py lines 60-75),
as the dynamically-typed values `AppConfig(**filtered)` produces. -/
structure LoadedConfig where
  hotkey : JVal := .str "f9"
  model : JVal := .str "base"
  language : JVal := .str "auto"
  device : JVal := .str "cpu"
  compute_type : JVal := .str "int8"
  output_mode : JVal := .str "paste"
  preserve_clipboard : JVal := .bool true
  vad_filter : JVal := .bool false
  always_on_top : JVal := .bool true
  show_bar : JVal := .bool true
  remember_position : JVal := .bool false
  window_pos : JVal := .null
deriving DecidableEq, Repr

/-- The keys of `AppConfig.__annotations__`. -/
def knownFields : List String :=
  ["hotkey", "model", "language", "device", "compute_type", "output_mode",
   "preserve_clipboard", "vad_filter", "always_on_top", "show_bar",
   "remember_position", "window_pos"]

/-- Outcome of opening and JSON-parsing the config file. `parsed` holds
the dict items (unique keys, as produced by `json.load`). -/
inductive ConfigFile
  | missing
  | ioError
  | parseError
  | parsed (raw : List (String × JVal))

/-- The migration block of `load_config`: if `output_mode` is absent and
the legacy `paste_after_copy` key is present, set `output_mode` from the
legacy value's truthiness. -/
def applyMigrations (raw : List (String × JVal)) : List (String × JVal) :=
  if (raw.lookup "output_mode").isNone && (raw.lookup "paste_after_copy").isSome then
    ("output_mode",
      JVal.str (if ((raw.lookup "paste_after_copy").getD JVal.null).truthy
                then "paste" else "clipboard")) :: raw
  else raw

/-- One field of `AppConfig(**{k: raw[k] for k in raw if k in annotations})`:
the raw value when the key is present, the dataclass default otherwise. -/
def fieldVal (raw : List (String × JVal)) (k : String) (dflt : JVal) : JVal :=
  (raw.lookup k).getD dflt

def buildConfig (raw : List (String × JVal)) : LoadedConfig :=
  { hotkey := fieldVal raw "hotkey" (.str "f9")
    model := fieldVal raw "model" (.str "base")
    language := fieldVal raw "language" (.str "auto")
    device := fieldVal raw "device" (.str "cpu")
    compute_type := fieldVal raw "compute_type" (.str "int8")
    output_mode := fieldVal raw "output_mode" (.str "paste")
    preserve_clipboard := fieldVal raw "preserve_clipboard" (.bool true)
    vad_filter := fieldVal raw "vad_filter" (.bool false)
    always_on_top := fieldVal raw "always_on_top" (.bool true)
    show_bar := fieldVal raw "show_bar" (.bool true)
    remember_position := fieldVal raw "remember_position" (.bool false)
    window_pos := fieldVal raw "window_pos" .null }

/-- `load_config` (voice_gui.py lines 78-92): `FileNotFoundError` and
every other exception (unreadable file, malformed JSON, non-object JSON)
yield the defaults; a parsed object goes through the migration and the
known-field filter. -/
def load_config : ConfigFile → LoadedConfig
  | .missing => {}
  | .ioError => {}
  | .parseError => {}
  | .parsed raw => buildConfig (applyMigrations raw)

/-! ## Clipboard and paste output (voice_gui.py lines 693-703, 787-815)

`QMimeData` is modelled as an association list of (format, data) pairs;
`formats()` lists the formats in order and `data(fmt)` looks a format up
(Qt stores each format once, so the key list of a real clipboard is
duplicate-free). -/

abbrev MimeData : Type := List (String × String)

def MimeData.formats (md : MimeData) : List String := md.map Prod.fst

def MimeData.dataOf (md : MimeData) (fmt : String) : String :=
  (md.lookup fmt).getD ""

/-- `App._clone_mime_data`: build a fresh `QMimeData` holding, for every
format of the original, the original's data for that format. -/
def clone_mime_data (md : MimeData) : MimeData :=
  (MimeData.formats md).map (fun fmt => (fmt, MimeData.dataOf md fmt))

/-- `clipboard().setText(text)` replaces the clipboard content with a
single plain-text representation. -/
def textMime (text : String) : MimeData := [("text/plain", text)]

/-- Python `str.strip()`: drop whitespace from both ends (executable,
unlike `String.trim`, so concrete runs reduce in the kernel). -/
def pyStrip (s : String) : String :=
  String.mk (((s.data.dropWhile Char.isWhitespace).reverse.dropWhile
    Char.isWhitespace).reverse)

/-- Python `str.lower()` on ASCII content. -/
def pyLower (s : String) : String := String.mk (s.data.map Char.toLower)

/-- Observable actions of the paste protocol, in program order.
`settle ms` is a `time.sleep` of `ms` milliseconds. -/
inductive ClipAct
  | snapshot
  | setText (t : String)
  | settle (ms : Nat)
  | pasteKeystroke
  | restore
deriving DecidableEq, Repr

/-- `App._paste_transcript` (with `_send_paste_shortcut` inlined):
optionally snapshot the clipboard, write the transcript, sleep, send the
paste chord (itself preceded by a 50 ms sleep), and if a snapshot was
taken sleep again and restore it. Returns the final clipboard content
and the action trace. -/
def paste_transcript (preserve_clipboard : Bool) (clip : MimeData)
    (text : String) : MimeData × List ClipAct :=
  let old : Option MimeData :=
    if preserve_clipboard then some (clone_mime_data clip) else none
  let preActs : List ClipAct :=
    if preserve_clipboard then [ClipAct.snapshot] else []
  let sent : List ClipAct :=
    preActs ++ [ClipAct.setText text, ClipAct.settle 50, ClipAct.settle 50,
      ClipAct.pasteKeystroke]
  match old with
  | some md => (md, sent ++ [ClipAct.settle 120, ClipAct.restore])
  | none => (textMime text, sent)

/-! ## Transcription worker (voice_gui.py lines 225-251)

The engine call `self._model.transcribe(...)` is external; its outcome
is either the pair (segments, info) or a raised exception. The worker
converts the outcome into exactly one Qt signal emission. -/

inductive EngineOutcome
  | ok (segTexts : List String) (language : Option String)
      (languageProbability : Option Int)
  | exn (exnName msg : String)
deriving DecidableEq, Repr

inductive WorkerMsg
  | finished (text lang : String) (prob : Int)
  | failed (err : String)
deriving DecidableEq, Repr

/-- `TranscribeWorker.run`: on success emit `finished` with the joined,
stripped segment text, the detected language (empty when absent) and the
language probability (0 when absent); on any exception emit `failed`
with "ExcName: message". -/
def TranscribeWorker.run : EngineOutcome → WorkerMsg
  | .ok segTexts language languageProbability =>
      .finished (pyStrip (String.join segTexts)) (language.getD "")
        (languageProbability.getD 0)
  | .exn exnName msg => .failed (exnName ++ ": " ++ msg)

/-! ## Controller (voice_gui.py `App`, lines 615-868)

The fields the session-machine claims touch: the typed config fields the
handlers read, the recorder, the `_transcribing` flag, the clipboard,
the tray notifications, and the overlay indicator mode
("idle"/"rec"/"work"). -/

structure AppConfig where
  hotkey : String := "f9"
  model : String := "base"
  language : String := "auto"
  device : String := "cpu"
  compute_type : String := "int8"
  output_mode : String := "paste"
  preserve_clipboard : Bool := true
  vad_filter : Bool := false
  always_on_top : Bool := true
  show_bar : Bool := true
  remember_position : Bool := false
  window_pos : Option (Int × Int) := none
deriving DecidableEq, Repr

structure AppState where
  recorder : RecState
  transcribing : Bool
  outstanding : Nat
  clip : MimeData
  notices : List String
  indicator : String
  cfg : AppConfig
deriving DecidableEq, Repr

/-- `App.__init__`: recorder idle, `_transcribing = False`, indicator
idle, no jobs outstanding. -/
def initState (cfg : AppConfig) (clip : MimeData) : AppState :=
  { recorder := { frames := [], recording := false }, transcribing := false,
    outstanding := 0, clip := clip, notices := [], indicator := "idle",
    cfg := cfg }

/-- `App.on_ptt_pressed`: drop the edge if transcribing or already
recording, otherwise start the recorder and (if the bar is shown) switch
the indicator to recording. The `except` branch for a failing microphone
open is outside the modelled event alphabet. -/
def on_ptt_pressed (s : AppState) : AppState :=
  if s.transcribing then s
  else if s.recorder.recording then s
  else
    let s1 : AppState := { s with recorder := Recorder.start s.recorder }
    if s1.cfg.show_bar then { s1 with indicator := "rec" } else s1

/-- `App.on_ptt_released`: return if not recording; stop the recorder;
on an empty snapshot just reset the indicator; if a job is already
outstanding drop the snapshot and reset the indicator; otherwise set the
transcribing flag, show the working indicator and hand the snapshot to a
new worker (ghost-counted by `outstanding`). The model-load failure
branch is outside the modelled event alphabet. -/
def on_ptt_released (s : AppState) : AppState :=
  if !s.recorder.recording then s
  else
    let p := Recorder.stop s.recorder
    let s1 : AppState := { s with recorder := p.1 }
    if p.2 = [] then
      (if s1.cfg.show_bar then { s1 with indicator := "idle" } else s1)
    else if s1.transcribing then
      (if s1.cfg.show_bar then { s1 with indicator := "idle" } else s1)
    else
      let s2 : AppState := { s1 with transcribing := true }
      let s3 : AppState :=
        if s2.cfg.show_bar then { s2 with indicator := "work" } else s2
      { s3 with outstanding := s3.outstanding + 1 }

/-- `App.on_transcribed`: clear the flag; empty stripped text notifies
"No speech detected."; otherwise apply the output mode — `clipboard`
writes the text, anything else runs the paste protocol — and reset the
indicator. -/
def on_transcribed (s : AppState) (text : String) (_lang : String)
    (_prob : Int) : AppState :=
  let s1 : AppState :=
    { s with transcribing := false, outstanding := s.outstanding - 1 }
  let t := pyStrip text
  if t = "" then
    let s2 : AppState := { s1 with notices := s1.notices ++ ["No speech detected."] }
    (if s2.cfg.show_bar then { s2 with indicator := "idle" } else s2)
  else
    let mode := pyLower (pyStrip
      (if s1.cfg.output_mode = "" then "paste" else s1.cfg.output_mode))
    let s2 : AppState :=
      if mode = "clipboard" then { s1 with clip := textMime t }
      else { s1 with clip := (paste_transcript s1.cfg.preserve_clipboard s1.clip t).1 }
    (if s2.cfg.show_bar then { s2 with indicator := "idle" } else s2)

/-- `App.on_transcribe_failed`: clear the flag, notify the error, reset
the indicator. The clipboard is not touched. -/
def on_transcribe_failed (s : AppState) (err : String) : AppState :=
  let s1 : AppState :=
    { s with transcribing := false
             outstanding := s.outstanding - 1
             notices := s.notices ++ ["Transcription error: " ++ err] }
  (if s1.cfg.show_bar then { s1 with indicator := "idle" } else s1)

/-- `App.on_stop_requested`: if recording, behave exactly like a hotkey
release. -/
def on_stop_requested (s : AppState) : AppState :=
  if s.recorder.recording then on_ptt_released s else s

/-- Messages delivered one at a time into the controller's thread:
hotkey edges, the UI stop button, audio-callback blocks, and worker
completion/failure signals. -/
inductive Ev
  | pressed
  | released
  | stopReq
  | block (b : List Int)
  | finished (text lang : String) (prob : Int)
  | failed (err : String)
deriving DecidableEq, Repr

def step (s : AppState) : Ev → AppState
  | .pressed => on_ptt_pressed s
  | .released => on_ptt_released s
  | .stopReq => on_stop_requested s
  | .block b => { s with recorder := Recorder.callback s.recorder b }
  | .finished text lang prob => on_transcribed s text lang prob
  | .failed err => on_transcribe_failed s err

def run (s : AppState) (evs : List Ev) : AppState := List.foldl step s evs

/-! ## Hotkey listener (voice_gui.py lines 579-612; ptt.py lines 120-134) -/

inductive KeyEv
  | down (k : String)
  | up (k : String)
deriving DecidableEq, Repr

inductive Edge
  | pressed
  | released
deriving DecidableEq, BEq, Repr

/-- `HotkeyListener.start`'s `on_press`/`on_release`: every key event
matching the configured hotkey emits the corresponding edge signal;
there is no held-state tracking. -/
def HotkeyListener.onEvent (hotkey : String) : KeyEv → List Edge
  | .down k => if k = hotkey then [Edge.pressed] else []
  | .up k => if k = hotkey then [Edge.released] else []

def HotkeyListener.edges (hotkey : String) (evs : List KeyEv) : List Edge :=
  (evs.map (HotkeyListener.onEvent hotkey)).flatten

/-- Number of physical presses of the hotkey in a raw event sequence: a
key-down counts only when the key is not already held (key-downs while
held are OS key-repeats). -/
def physicalPresses (hotkey : String) (evs : List KeyEv) : Nat :=
  (List.foldl
    (fun (st : Bool × Nat) e =>
      match e with
      | KeyEv.down k => if k = hotkey then (true, if st.1 then st.2 else st.2 + 1) else st
      | KeyEv.up k => if k = hotkey then (false, st.2) else st)
    (false, 0) evs).2

/-- The session invariant: at most one transcription job outstanding,
the `_transcribing` flag tracks exactly whether a job is outstanding,
and the recorder never captures while a job is outstanding. -/
def Inv (s : AppState) : Prop :=
  s.outstanding ≤ 1 ∧
  (s.transcribing = true ↔ s.outstanding = 1) ∧
  ¬(s.recorder.recording = true ∧ 1 ≤ s.outstanding) ∧
  ¬(s.recorder.recording = true ∧ s.transcribing = true)

instance (s : AppState) : Decidable (Inv s) := by
  unfold Inv
  infer_instance

/-! ## Theorems -/

theorem appendBlocks_frames (bs : List (List Int)) : ∀ r : RecState,
    r.recording = true →
    Recorder.appendBlocks r bs = { frames := r.frames ++ bs, recording := true } := by
  induction bs with
  | nil =>
    intro r h
    cases r
    simp_all [Recorder.appendBlocks]
  | cons b bs ih =>
    intro r h
    have : Recorder.appendBlocks r (b :: bs)
        = Recorder.appendBlocks (Recorder.callback r b) bs := rfl
    rw [this, Recorder.callback, if_pos h,
      ih { r with frames := r.frames ++ [b] } h]
    simp

/-- One full start→callbacks→stop cycle from a non-capturing recorder
returns exactly the appended blocks, concatenated, and leaves the
recorder non-capturing with an empty buffer. -/
theorem cycle_eq (r : RecState) (bs : List (List Int)) (h : r.recording = false) :
    Recorder.stop (Recorder.appendBlocks (Recorder.start r) bs)
      = ({ frames := [], recording := false }, bs.flatten) := by
  have hs : Recorder.start r = { frames := [], recording := true } := by
    simp [Recorder.start, h]
  rw [hs, appendBlocks_frames bs _ rfl]
  by_cases hb : bs = []
  · subst hb; simp [Recorder.stop]
  · simp [Recorder.stop, hb]

/-- C4: `Recorder.start()` is idempotent while capturing — a second
`start()` without an intervening `stop()` is a no-op that preserves the
accumulated buffer and keeps the capturing flag set; only a `start()`
from the non-capturing state clears the buffer. -/
theorem recorder_start_idempotent (r : RecState) :
    (r.recording = true → Recorder.start r = r) ∧
    (r.recording = false →
      Recorder.start r = { frames := [], recording := true }) := by
  constructor <;> intro h <;> simp [Recorder.start, h]

theorem recorder_start_idempotent_witness :
    Recorder.start { frames := [[1, 2]], recording := true }
        = { frames := [[1, 2]], recording := true } ∧
    Recorder.start { frames := [[1, 2]], recording := false }
        = { frames := [], recording := true } :=
  ⟨(recorder_start_idempotent _).1 rfl, (recorder_start_idempotent _).2 rfl⟩

/-- C5: `stop()` while not capturing returns an empty sequence (and
leaves the state untouched), `stop()` after a capture with zero appended
blocks returns an empty sequence, a `released` edge while not capturing
is a no-op, and a `released` edge on a capture with zero blocks submits
no job and returns the session to Idle. -/
theorem recorder_stop_empty_no_job (r : RecState) (s : AppState) :
    (r.recording = false → Recorder.stop r = (r, [])) ∧
    (r.frames = [] → (Recorder.stop r).2 = []) ∧
    (s.recorder.recording = false → on_ptt_released s = s) ∧
    (s.recorder.recording = true → s.recorder.frames = [] →
      (on_ptt_released s).outstanding = s.outstanding ∧
      (on_ptt_released s).transcribing = s.transcribing ∧
      (on_ptt_released s).recorder.recording = false ∧
      (on_ptt_released s).notices = s.notices) := by
  refine ⟨fun h => by simp [Recorder.stop, h], fun h => ?_, fun h => ?_, fun h hf => ?_⟩
  · by_cases hr : r.recording <;> simp [Recorder.stop, hr, h]
  · simp [on_ptt_released, h]
  · have hst : Recorder.stop s.recorder
        = ({ s.recorder with recording := false }, []) := by
      simp [Recorder.stop, h, hf]
    by_cases hb : s.cfg.show_bar <;> simp [on_ptt_released, h, hst, hb]

theorem recorder_stop_empty_no_job_witness :
    Recorder.stop { frames := [[3]], recording := false }
        = ({ frames := [[3]], recording := false }, []) ∧
    (Recorder.stop { frames := [], recording := true }).2 = [] ∧
    on_ptt_released (initState {} []) = initState {} [] ∧
    (on_ptt_released { initState {} [] with
        recorder := { frames := [], recording := true } }).outstanding = 0 := by
  refine ⟨(recorder_stop_empty_no_job _ (initState {} [])).1 rfl,
          (recorder_stop_empty_no_job { frames := [], recording := true }
            (initState {} [])).2.1 rfl,
          (recorder_stop_empty_no_job { frames := [], recording := false }
            (initState {} [])).2.2.1 rfl, ?_⟩
  have h := (recorder_stop_empty_no_job { frames := [], recording := false }
      { initState {} [] with recorder := { frames := [], recording := true } }).2.2.2
      rfl rfl
  exact h.1

/-- C6: the snapshot returned by `stop()` contains exactly the samples
appended between the matching `start()` and that `stop()`, in order; in
particular, the second of two sequential cycles returns exactly its own
blocks, so it contains none of the first cycle's samples. -/
theorem recorder_snapshot_exact (r : RecState) (bs₁ bs₂ : List (List Int))
    (h : r.recording = false) :
    (Recorder.stop (Recorder.appendBlocks (Recorder.start r) bs₁)).2 = bs₁.flatten ∧
    (Recorder.stop (Recorder.appendBlocks (Recorder.start
        (Recorder.stop (Recorder.appendBlocks (Recorder.start r) bs₁)).1) bs₂)).2
      = bs₂.flatten ∧
    ∀ x ∈ (Recorder.stop (Recorder.appendBlocks (Recorder.start
        (Recorder.stop (Recorder.appendBlocks (Recorder.start r) bs₁)).1) bs₂)).2,
      x ∈ bs₂.flatten := by
  have h1 := cycle_eq r bs₁ h
  rw [h1]
  have h2 := cycle_eq { frames := [], recording := false } bs₂ rfl
  rw [h2]
  exact ⟨rfl, rfl, fun x hx => hx⟩

theorem recorder_snapshot_exact_witness :
    (Recorder.stop (Recorder.appendBlocks
        (Recorder.start { frames := [], recording := false }) [[1, 2], [3]])).2
      = [1, 2, 3] ∧
    (Recorder.stop (Recorder.appendBlocks (Recorder.start
        (Recorder.stop (Recorder.appendBlocks
          (Recorder.start { frames := [], recording := false }) [[1, 2], [3]])).1)
        [[4], [5]])).2 = [4, 5] := by
  have h := recorder_snapshot_exact { frames := [], recording := false }
    [[1, 2], [3]] [[4], [5]] rfl
  exact ⟨h.1, h.2.1⟩

theorem lookup_cons_of_ne {β : Type} (a k : String) (v : β)
    (l : List (String × β)) (h : ¬a = k) :
    List.lookup a ((k, v) :: l) = List.lookup a l := by
  have hb : (a == k) = false := beq_eq_false_iff_ne.mpr h
  simp [List.lookup, hb]

theorem lookup_cons_self {β : Type} (a : String) (v : β)
    (l : List (String × β)) :
    List.lookup a ((a, v) :: l) = some v := by
  simp [List.lookup]

theorem buildConfig_eq_of_lookups (l₁ l₂ : List (String × JVal))
    (h : ∀ f ∈ knownFields, List.lookup f l₁ = List.lookup f l₂) :
    buildConfig l₁ = buildConfig l₂ := by
  simp only [buildConfig, fieldVal]
  rw [h "hotkey" (by simp [knownFields]), h "model" (by simp [knownFields]),
    h "language" (by simp [knownFields]), h "device" (by simp [knownFields]),
    h "compute_type" (by simp [knownFields]),
    h "output_mode" (by simp [knownFields]),
    h "preserve_clipboard" (by simp [knownFields]),
    h "vad_filter" (by simp [knownFields]),
    h "always_on_top" (by simp [knownFields]),
    h "show_bar" (by simp [knownFields]),
    h "remember_position" (by simp [knownFields]),
    h "window_pos" (by simp [knownFields])]

/-- C7: `load_config` is total over every config-file outcome; a
missing, unreadable or malformed file yields exactly the documented
defaults, and a field with an unknown key is ignored. -/
theorem load_config_total_defaults :
    load_config ConfigFile.missing = {} ∧
    load_config ConfigFile.ioError = {} ∧
    load_config ConfigFile.parseError = {} ∧
    (∀ (k : String) (v : JVal) (raw : List (String × JVal)),
      k ∉ knownFields → k ≠ "paste_after_copy" →
      load_config (ConfigFile.parsed ((k, v) :: raw))
        = load_config (ConfigFile.parsed raw)) := by
  refine ⟨rfl, rfl, rfl, fun k v raw hk hl => ?_⟩
  have hom : ¬"output_mode" = k :=
    fun h => hk (h ▸ (show "output_mode" ∈ knownFields by simp [knownFields]))
  have hpac : ¬"paste_after_copy" = k := fun h => hl h.symm
  have e6 := lookup_cons_of_ne "output_mode" k v raw hom
  have el := lookup_cons_of_ne "paste_after_copy" k v raw hpac
  show buildConfig (applyMigrations ((k, v) :: raw))
      = buildConfig (applyMigrations raw)
  apply buildConfig_eq_of_lookups
  intro f hf
  have hfk : ¬f = k := fun h => hk (h ▸ hf)
  simp only [applyMigrations, e6, el]
  by_cases hmig : ((List.lookup "output_mode" raw).isNone
      && (List.lookup "paste_after_copy" raw).isSome) = true
  · rw [if_pos hmig, if_pos hmig]
    by_cases hfo : f = "output_mode"
    · subst hfo
      rw [lookup_cons_self, lookup_cons_self]
    · rw [lookup_cons_of_ne f "output_mode" _ _ hfo,
        lookup_cons_of_ne f "output_mode" _ _ hfo,
        lookup_cons_of_ne f k v raw hfk]
  · rw [if_neg hmig, if_neg hmig, lookup_cons_of_ne f k v raw hfk]

theorem load_config_total_defaults_witness :
    load_config ConfigFile.missing = {} ∧
    load_config (ConfigFile.parsed
        [("theme", JVal.str "dark"), ("model", JVal.str "tiny")])
      = load_config (ConfigFile.parsed [("model", JVal.str "tiny")]) :=
  ⟨load_config_total_defaults.1,
   load_config_total_defaults.2.2.2 "theme" (JVal.str "dark")
     [("model", JVal.str "tiny")] (by decide) (by decide)⟩

/-- C9: when `output_mode` is absent but the legacy boolean
`paste_after_copy` is present, the loaded `output_mode` is "paste" for
true and "clipboard" for false. -/
theorem load_config_legacy_paste (raw : List (String × JVal)) (b : Bool)
    (h1 : raw.lookup "output_mode" = none)
    (h2 : raw.lookup "paste_after_copy" = some (JVal.bool b)) :
    (load_config (ConfigFile.parsed raw)).output_mode
      = JVal.str (if b then "paste" else "clipboard") := by
  simp [load_config, applyMigrations, buildConfig, fieldVal, h1, h2,
    JVal.truthy, List.lookup]

theorem load_config_legacy_paste_witness :
    (load_config (ConfigFile.parsed [("paste_after_copy", JVal.bool true)])).output_mode
        = JVal.str "paste" ∧
    (load_config (ConfigFile.parsed [("paste_after_copy", JVal.bool false)])).output_mode
        = JVal.str "clipboard" :=
  ⟨load_config_legacy_paste [("paste_after_copy", JVal.bool true)] true rfl rfl,
   load_config_legacy_paste [("paste_after_copy", JVal.bool false)] false rfl rfl⟩

/-- C8: every exception inside the engine call becomes exactly one
failure message at the worker boundary, and processing that failure
clears the busy flag, returns the session to Idle and performs no
clipboard mutation. -/
theorem worker_failure_clears_busy (exnName msg : String) (s : AppState)
    (err : String) :
    TranscribeWorker.run (EngineOutcome.exn exnName msg)
        = WorkerMsg.failed (exnName ++ ": " ++ msg) ∧
    (s.transcribing = true → s.recorder.recording = false →
      s.outstanding = 1 →
      (on_transcribe_failed s err).transcribing = false ∧
      (on_transcribe_failed s err).outstanding = 0 ∧
      (on_transcribe_failed s err).recorder.recording = false ∧
      (on_transcribe_failed s err).clip = s.clip) := by
  refine ⟨rfl, fun _ hr ho => ?_⟩
  by_cases hb : s.cfg.show_bar <;>
    simp [on_transcribe_failed, hb, hr, ho]

theorem worker_failure_clears_busy_witness :
    TranscribeWorker.run (EngineOutcome.exn "EngineError" "disk read error")
        = WorkerMsg.failed "EngineError: disk read error" ∧
    (on_transcribe_failed
        { initState {} [("text/html", "x")] with
          transcribing := true, outstanding := 1 }
        "EngineError: disk read error").clip = [("text/html", "x")] := by
  have h := worker_failure_clears_busy "EngineError" "disk read error"
    { initState {} [("text/html", "x")] with transcribing := true, outstanding := 1 }
    "EngineError: disk read error"
  exact ⟨h.1, (h.2 rfl rfl rfl).2.2.2⟩

/-- C10: a released edge (or the UI stop request) processed while the
transcribing flag is set and the recorder is capturing stops the
recorder and silently discards the non-empty snapshot: no job is
submitted, nothing is queued, the notices are untouched and only the
indicator is reset to idle. -/
theorem released_while_transcribing_drops (s : AppState)
    (h1 : s.transcribing = true) (h2 : s.recorder.recording = true)
    (h3 : s.recorder.frames.flatten ≠ []) :
    (on_ptt_released s).outstanding = s.outstanding ∧
    (on_ptt_released s).transcribing = true ∧
    (on_ptt_released s).recorder.recording = false ∧
    (on_ptt_released s).recorder.frames = [] ∧
    (on_ptt_released s).notices = s.notices ∧
    (on_ptt_released s).clip = s.clip ∧
    (on_ptt_released s).indicator
      = (if s.cfg.show_bar then "idle" else s.indicator) ∧
    on_stop_requested s = on_ptt_released s := by
  have hf : s.recorder.frames ≠ [] := by
    intro h
    exact h3 (by rw [h]; rfl)
  have hst : Recorder.stop s.recorder
      = ({ frames := [], recording := false }, s.recorder.frames.flatten) := by
    simp [Recorder.stop, h2, hf]
  by_cases hb : s.cfg.show_bar <;>
    simp [on_ptt_released, on_stop_requested, h1, h2, h3, hst, hb]

theorem released_while_transcribing_drops_witness :
    (on_ptt_released
        { initState {} [] with
          transcribing := true, outstanding := 1,
          recorder := { frames := [[7]], recording := true } }).outstanding = 1 ∧
    (on_ptt_released
        { initState {} [] with
          transcribing := true, outstanding := 1,
          recorder := { frames := [[7]], recording := true } }).recorder.frames
      = [] := by
  have h := released_while_transcribing_drops
    { initState {} [] with
      transcribing := true, outstanding := 1,
      recorder := { frames := [[7]], recording := true } }
    rfl rfl (by decide)
  exact ⟨h.1, h.2.2.2.1⟩

/-- C2 as stated is false: the hotkey listener has no held-state
tracking, so during a single physical press-hold of "f9" containing one
OS key-repeat (down, repeat down, up) it emits two pressed edges, not at
most one. -/
theorem hotkey_repeat_counterexample :
    physicalPresses "f9" [KeyEv.down "f9", KeyEv.down "f9", KeyEv.up "f9"] = 1 ∧
    ¬((HotkeyListener.edges "f9"
        [KeyEv.down "f9", KeyEv.down "f9", KeyEv.up "f9"]).count Edge.pressed
      ≤ physicalPresses "f9"
          [KeyEv.down "f9", KeyEv.down "f9", KeyEv.up "f9"]) := by
  decide

/-- C2 amended: the listener emits one pressed edge per matching
key-down event, OS key-repeats included; suppression happens downstream
in the controller, where `on_ptt_pressed` is idempotent (a repeat
pressed edge while already recording or transcribing changes nothing,
so at most one recording starts per press-hold). -/
theorem hotkey_pressed_per_keydown (hotkey : String) (evs : List KeyEv)
    (s : AppState) :
    (HotkeyListener.edges hotkey evs).count Edge.pressed
      = evs.countP (fun e => match e with
          | KeyEv.down k => k == hotkey
          | KeyEv.up _ => false) ∧
    (s.recorder.recording = true → on_ptt_pressed s = s) ∧
    on_ptt_pressed (on_ptt_pressed s) = on_ptt_pressed s := by
  refine ⟨?_, fun hr => ?_, ?_⟩
  · induction evs with
    | nil => rfl
    | cons e evs ih =>
      have hsplit : HotkeyListener.edges hotkey (e :: evs)
          = HotkeyListener.onEvent hotkey e ++ HotkeyListener.edges hotkey evs := by
        simp [HotkeyListener.edges]
      rw [hsplit, List.count_append, ih, List.countP_cons]
      cases e with
      | down k =>
        by_cases hk : k = hotkey <;>
          simp [HotkeyListener.onEvent, hk, List.count_cons, Nat.add_comm] <;>
          try decide
      | up k =>
        by_cases hk : k = hotkey <;>
          simp [HotkeyListener.onEvent, hk, List.count_cons] <;>
          try decide
  · by_cases ht : s.transcribing <;> simp [on_ptt_pressed, ht, hr]
  · by_cases ht : s.transcribing
    · simp [on_ptt_pressed, ht]
    · by_cases hr : s.recorder.recording
      · simp [on_ptt_pressed, ht, hr]
      · by_cases hb : s.cfg.show_bar <;>
          simp [on_ptt_pressed, ht, hr, hb, Recorder.start]

theorem hotkey_pressed_per_keydown_witness :
    (HotkeyListener.edges "f9"
        [KeyEv.down "f9", KeyEv.down "f9", KeyEv.up "f9"]).count Edge.pressed
      = 2 ∧
    on_ptt_pressed
        { initState {} [] with recorder := { frames := [[1]], recording := true } }
      = { initState {} [] with recorder := { frames := [[1]], recording := true } } := by
  have h := hotkey_pressed_per_keydown "f9"
    [KeyEv.down "f9", KeyEv.down "f9", KeyEv.up "f9"]
    { initState {} [] with recorder := { frames := [[1]], recording := true } }
  exact ⟨by rw [h.1]; decide, h.2.1 rfl⟩

theorem stop_recording_false (r : RecState) (h : r.recording = true) :
    (Recorder.stop r).1.recording = false := by
  by_cases hf : r.frames = [] <;> simp [Recorder.stop, h, hf]

theorem inv_pressed (s : AppState) (h : Inv s) : Inv (on_ptt_pressed s) := by
  obtain ⟨h1, h2, h3, h4⟩ := h
  by_cases ht : s.transcribing
  · simpa [on_ptt_pressed, ht] using ⟨h1, h2, h3, h4⟩
  · by_cases hr : s.recorder.recording
    · simpa [on_ptt_pressed, ht, hr] using ⟨h1, h2, h3, h4⟩
    · have ho : s.outstanding = 0 := by
        have hne : ¬s.outstanding = 1 := fun he => ht (h2.mpr he)
        omega
      by_cases hb : s.cfg.show_bar <;>
        simp [on_ptt_pressed, ht, hr, hb, Recorder.start, Inv, ho, ht]

theorem inv_released (s : AppState) (h : Inv s) : Inv (on_ptt_released s) := by
  obtain ⟨h1, h2, h3, h4⟩ := h
  by_cases hr : s.recorder.recording
  · have ho : s.outstanding = 0 := by
      have : ¬1 ≤ s.outstanding := fun hle => h3 ⟨hr, hle⟩
      omega
    have htf : s.transcribing = false := by
      rcases Bool.eq_false_or_eq_true s.transcribing with hx | hx
      · exact absurd ⟨hr, hx⟩ h4
      · exact hx
    have hsr := stop_recording_false s.recorder hr
    by_cases haudio : (Recorder.stop s.recorder).2 = [] <;>
      by_cases hb : s.cfg.show_bar <;>
        simp [on_ptt_released, hr, htf, haudio, hb, Inv, hsr, ho]
  · simpa [on_ptt_released, hr] using ⟨h1, h2, h3, h4⟩

theorem inv_block (s : AppState) (b : List Int) (h : Inv s) :
    Inv { s with recorder := Recorder.callback s.recorder b } := by
  obtain ⟨h1, h2, h3, h4⟩ := h
  have hrec : (Recorder.callback s.recorder b).recording
      = s.recorder.recording := by
    by_cases hr : s.recorder.recording <;> simp [Recorder.callback, hr]
  refine ⟨h1, h2, fun hc => h3 ⟨?_, hc.2⟩, fun hc => h4 ⟨?_, hc.2⟩⟩
  · rw [← hrec]; exact hc.1
  · rw [← hrec]; exact hc.1

theorem inv_transcribed (s : AppState) (text lang : String) (prob : Int)
    (h : Inv s) : Inv (on_transcribed s text lang prob) := by
  obtain ⟨h1, h2, h3, h4⟩ := h
  have ho : s.outstanding - 1 = 0 := by omega
  by_cases ht : pyStrip text = "" <;>
    by_cases hm : pyLower (pyStrip (if s.cfg.output_mode = "" then "paste"
        else s.cfg.output_mode)) = "clipboard" <;>
      by_cases hb : s.cfg.show_bar <;>
        simp [on_transcribed, ht, hm, hb, Inv, ho]

theorem inv_failed (s : AppState) (err : String) (h : Inv s) :
    Inv (on_transcribe_failed s err) := by
  obtain ⟨h1, h2, h3, h4⟩ := h
  have ho : s.outstanding - 1 = 0 := by omega
  by_cases hb : s.cfg.show_bar <;>
    simp [on_transcribe_failed, hb, Inv, ho]

theorem step_preserves_inv (s : AppState) (e : Ev) (h : Inv s) :
    Inv (step s e) := by
  cases e with
  | pressed => exact inv_pressed s h
  | released => exact inv_released s h
  | stopReq =>
    by_cases hr : s.recorder.recording
    · simpa [step, on_stop_requested, hr] using inv_released s h
    · simpa [step, on_stop_requested, hr] using h
  | block b => exact inv_block s b h
  | finished text lang prob => exact inv_transcribed s text lang prob h
  | failed err => exact inv_failed s err h

theorem inv_run (s : AppState) (evs : List Ev) (h : Inv s) : Inv (run s evs) := by
  induction evs generalizing s with
  | nil => exact h
  | cons e l ih => exact ih (step s e) (step_preserves_inv s e h)

/-- C1: from the initial state, for every sequence of pressed edges,
released edges, stop requests, audio blocks and job-completion/failure
messages processed one at a time, the session satisfies `Inv` — the
recorder never captures while a job is outstanding and at most one job
is ever outstanding — and a pressed edge processed while a job is
outstanding changes nothing (no recording starts, nothing is queued). -/
theorem controller_invariants (cfg : AppConfig) (clip : MimeData)
    (evs : List Ev) :
    Inv (run (initState cfg clip) evs) ∧
    (1 ≤ (run (initState cfg clip) evs).outstanding →
      step (run (initState cfg clip) evs) Ev.pressed
        = run (initState cfg clip) evs) := by
  have h0 : Inv (initState cfg clip) := by
    simp [Inv, initState]
  have hInv := inv_run (initState cfg clip) evs h0
  refine ⟨hInv, fun hout => ?_⟩
  have h1 : (run (initState cfg clip) evs).outstanding = 1 :=
    Nat.le_antisymm hInv.1 hout
  have ht : (run (initState cfg clip) evs).transcribing = true :=
    hInv.2.1.mpr h1
  simp [step, on_ptt_pressed, ht]

theorem controller_invariants_witness :
    Inv (run (initState {} []) [Ev.pressed, Ev.block [1], Ev.released]) ∧
    step (run (initState {} []) [Ev.pressed, Ev.block [1], Ev.released])
        Ev.pressed
      = run (initState {} []) [Ev.pressed, Ev.block [1], Ev.released] :=
  ⟨(controller_invariants {} [] [Ev.pressed, Ev.block [1], Ev.released]).1,
   (controller_invariants {} [] [Ev.pressed, Ev.block [1], Ev.released]).2
     (by decide)⟩

theorem lookup_self_of_nodup {β : Type} (md : List (String × β))
    (a : String) (b : β) (hn : (md.map Prod.fst).Nodup) (hm : (a, b) ∈ md) :
    List.lookup a md = some b := by
  induction md with
  | nil => cases hm
  | cons p t ih =>
    rw [List.map_cons] at hn
    obtain ⟨hp, htn⟩ := List.nodup_cons.mp hn
    rcases List.mem_cons.mp hm with he | hm'
    · subst he
      exact lookup_cons_self a b t
    · obtain ⟨k, v⟩ := p
      have hak : ¬a = k := by
        intro hx
        apply hp
        rw [← hx]
        exact List.mem_map.mpr ⟨(a, b), hm', rfl⟩
      rw [lookup_cons_of_ne a k v t hak]
      exact ih htn hm'

/-- Cloning a mime payload whose format list is duplicate-free
reproduces it exactly. -/
theorem clone_mime_data_id (md : MimeData) (hn : (md.map Prod.fst).Nodup) :
    clone_mime_data md = md := by
  have h1 : clone_mime_data md
      = md.map (fun p => (p.1, MimeData.dataOf md p.1)) := by
    simp [clone_mime_data, MimeData.formats, List.map_map]
  have h2 : ∀ p ∈ md, (p.1, MimeData.dataOf md p.1) = p := by
    intro p hp
    have hl := lookup_self_of_nodup md p.1 p.2 hn (by simpa using hp)
    simp [MimeData.dataOf, hl]
  rw [h1, List.map_congr_left h2]
  simp

theorem paste_transcript_preserve (clip : MimeData) (text : String)
    (hn : (clip.map Prod.fst).Nodup) :
    (paste_transcript true clip text).1 = clip ∧
    (paste_transcript true clip text).2
      = [ClipAct.snapshot, ClipAct.setText text, ClipAct.settle 50,
         ClipAct.settle 50, ClipAct.pasteKeystroke, ClipAct.settle 120,
         ClipAct.restore] := by
  simp [paste_transcript, clone_mime_data_id clip hn]

theorem on_transcribed_clip (s : AppState) (text lang : String) (prob : Int)
    (hm : s.cfg.output_mode = "paste") (hp : s.cfg.preserve_clipboard = true)
    (hn : (s.clip.map Prod.fst).Nodup) :
    (on_transcribed s text lang prob).clip = s.clip ∧
    (on_transcribed s text lang prob).cfg = s.cfg := by
  have hmode : pyLower (pyStrip (if s.cfg.output_mode = "" then "paste"
      else s.cfg.output_mode)) = "paste" := by
    rw [hm]
    decide
  by_cases ht : pyStrip text = "" <;>
    by_cases hb : s.cfg.show_bar <;>
      simp [on_transcribed, ht, hb, hmode, hp,
        (paste_transcript_preserve s.clip (pyStrip text) hn).1]

theorem step_preserves_clip (s : AppState) (e : Ev)
    (hm : s.cfg.output_mode = "paste") (hp : s.cfg.preserve_clipboard = true)
    (hn : (s.clip.map Prod.fst).Nodup) :
    (step s e).clip = s.clip ∧ (step s e).cfg = s.cfg := by
  cases e with
  | pressed =>
    by_cases ht : s.transcribing <;>
      by_cases hr : s.recorder.recording <;>
        by_cases hb : s.cfg.show_bar <;>
          simp [step, on_ptt_pressed, ht, hr, hb]
  | released =>
    by_cases hr : s.recorder.recording
    · by_cases haudio : (Recorder.stop s.recorder).2 = [] <;>
        by_cases htr : s.transcribing <;>
          by_cases hb : s.cfg.show_bar <;>
            simp [step, on_ptt_released, hr, haudio, htr, hb]
    · simp [step, on_ptt_released, hr]
  | stopReq =>
    by_cases hr : s.recorder.recording
    · by_cases haudio : (Recorder.stop s.recorder).2 = [] <;>
        by_cases htr : s.transcribing <;>
          by_cases hb : s.cfg.show_bar <;>
            simp [step, on_stop_requested, on_ptt_released, hr, haudio, htr, hb]
    · simp [step, on_stop_requested, hr]
  | block b => exact ⟨rfl, rfl⟩
  | finished text lang prob => exact on_transcribed_clip s text lang prob hm hp hn
  | failed err =>
    by_cases hb : s.cfg.show_bar <;> simp [step, on_transcribe_failed, hb]

/-- C3: with output mode `paste` and `preserve_clipboard` set, the
clipboard after any run of session events equals the clipboard before it
(across all representations it held, assuming distinct formats as Qt
provides), and the paste protocol's trace snapshots the clipboard before
the transcript write and restores it after the paste keystroke and the
final settle delay. -/
theorem paste_preserves_clipboard (s : AppState) (evs : List Ev)
    (text : String) (hm : s.cfg.output_mode = "paste")
    (hp : s.cfg.preserve_clipboard = true)
    (hn : (s.clip.map Prod.fst).Nodup) :
    (run s evs).clip = s.clip ∧
    (paste_transcript true s.clip text).2
      = [ClipAct.snapshot, ClipAct.setText text, ClipAct.settle 50,
         ClipAct.settle 50, ClipAct.pasteKeystroke, ClipAct.settle 120,
         ClipAct.restore] := by
  refine ⟨?_, (paste_transcript_preserve s.clip text hn).2⟩
  have main : ∀ (l : List Ev) (t : AppState), t.cfg.output_mode = "paste" →
      t.cfg.preserve_clipboard = true → (t.clip.map Prod.fst).Nodup →
      (run t l).clip = t.clip := by
    intro l
    induction l with
    | nil => intro t _ _ _; rfl
    | cons e l ih =>
      intro t htm htp htn
      have hstep := step_preserves_clip t e htm htp htn
      have h1 : (step t e).cfg.output_mode = "paste" := by
        rw [hstep.2]; exact htm
      have h2 : (step t e).cfg.preserve_clipboard = true := by
        rw [hstep.2]; exact htp
      have h3 : ((step t e).clip.map Prod.fst).Nodup := by
        rw [hstep.1]; exact htn
      have hrun : run t (e :: l) = run (step t e) l := rfl
      rw [hrun, ih (step t e) h1 h2 h3, hstep.1]
  exact main evs s hm hp hn

theorem paste_preserves_clipboard_witness :
    (run (initState {} [("text/html", "<b>x</b>"), ("text/plain", "x")])
        [Ev.pressed, Ev.block [1], Ev.released,
         Ev.finished "hello world" "en" 0]).clip
      = [("text/html", "<b>x</b>"), ("text/plain", "x")] ∧
    (paste_transcript true
        [("text/html", "<b>x</b>"), ("text/plain", "x")] "hello world").2
      = [ClipAct.snapshot, ClipAct.setText "hello world", ClipAct.settle 50,
         ClipAct.settle 50, ClipAct.pasteKeystroke, ClipAct.settle 120,
         ClipAct.restore] :=
  paste_preserves_clipboard
    (initState {} [("text/html", "<b>x</b>"), ("text/plain", "x")])
    [Ev.pressed, Ev.block [1], Ev.released, Ev.finished "hello world" "en" 0]
    "hello world" rfl rfl (by decide)

end Voice
